import Mathlib

/-!
Shallow embedding of `src/Reader/Reader.cpp` (class `Reader` of the
CMSDASTTbar repository).

The Reader iterates over events stored in a sequence of named trees
("partitions") of a ROOT file, decodes each entry into lepton/jet/MET
collections, selects among nominal and JEC-shifted variants, and lazily
computes and caches a per-event weight.

Modelling conventions:
* `double`/`float` quantities are modelled as `ℤ` (an executable stand-in:
  the modelled code only multiplies, compares and zero-tests these values,
  never divides, and the claims under study concern products, zero tests
  and comparisons, not IEEE rounding).
* The physics value types `Lepton`, `Jet`, `MET` are external collaborators
  (declared outside this repository); per the specification they are plain
  records totally ordered by transverse momentum.
* The external ROOT file is modelled as an association list from tree names
  to entry lists; `TTree::GetEntry` on an index outside `[0, nEntries)` is
  undefined per the storage contract and is modelled as an error, as is any
  use of an invalid `std::list` iterator in the source (incrementing or
  dereferencing a past-the-end iterator).
* `std::sort(v.rbegin(), v.rend())` sorts the vector into non-increasing
  order with respect to `operator<` (ordering by transverse momentum); it is
  modelled by insertion sort with the "greater-or-equal pt" relation.  Tie
  order is unspecified in the source and irrelevant to the claims.
* C++ exceptions are modelled with `Except`.
-/

/-- A charged lepton: flavour, transverse momentum, pseudorapidity, azimuthal
angle, isolation. -/
structure Lepton where
  flavour : Int
  pt : ℤ
  eta : ℤ
  phi : ℤ
  iso : ℤ
deriving DecidableEq, Repr

/-- A hadronic jet: transverse momentum, pseudorapidity, azimuthal angle,
b-tagging discriminator, flavour. -/
structure Jet where
  pt : ℤ
  eta : ℤ
  phi : ℤ
  bTag : ℤ
  flavour : Int
deriving DecidableEq, Repr

/-- Missing transverse energy: magnitude and azimuthal angle. -/
structure MET where
  pt : ℤ
  phi : ℤ
deriving DecidableEq, Repr, Inhabited

/-- Systematic-variation type.  The source mentions `Nominal` and `JEC`;
the specification allows further model-specific types, represented by the
`Other` constructor. -/
inductive SystType
  | Nominal
  | JEC
  | Other (tag : Nat)
deriving DecidableEq, Repr, Inhabited

/-- Direction of a systematic variation. -/
inductive SystDirection
  | Up
  | Down
deriving DecidableEq, Repr, Inhabited

/-- Ordering relation used for sorting: earlier element has
greater-or-equal transverse momentum. -/
def ptGeLep (a b : Lepton) : Prop := b.pt ≤ a.pt

/-- Ordering relation used for sorting jets: earlier element has
greater-or-equal transverse momentum. -/
def ptGeJet (a b : Jet) : Prop := b.pt ≤ a.pt

instance : DecidableRel ptGeLep := fun a b => inferInstanceAs (Decidable (b.pt ≤ a.pt))

instance : DecidableRel ptGeJet := fun a b => inferInstanceAs (Decidable (b.pt ≤ a.pt))

instance : IsTotal Lepton ptGeLep := ⟨fun a b => le_total b.pt a.pt⟩

instance : IsTotal Jet ptGeJet := ⟨fun a b => le_total b.pt a.pt⟩

instance : IsTrans Lepton ptGeLep := ⟨fun _ _ _ h1 h2 => le_trans h2 h1⟩

instance : IsTrans Jet ptGeJet := ⟨fun _ _ _ h1 h2 => le_trans h2 h1⟩

/-- `std::sort(leptons.rbegin(), leptons.rend())`: non-increasing pt order. -/
def sortLeptons (l : List Lepton) : List Lepton := l.insertionSort ptGeLep

/-- `std::sort(jets.rbegin(), jets.rend())`: non-increasing pt order. -/
def sortJets (l : List Jet) : List Jet := l.insertionSort ptGeJet

/-- The content one `TTree::GetEntry` call places into the Reader's read
buffers: the parallel per-object arrays are grouped into object records.
The JEC-shifted blocks and the raw weight are only bound (hence only read)
for simulation samples. -/
structure RawEntry where
  leptons : List Lepton
  jets : List Jet
  met : MET
  jetsJECUp : List Jet
  jetsJECDown : List Jet
  metJECUp : MET
  metJECDown : MET
  rawWeight : ℤ
  nPV : Nat
deriving DecidableEq, Repr

/-- The external source file (`TFile`): validity flag (absent-or-zombie
handles are invalid) and a name-to-tree association. -/
structure SourceFile where
  valid : Bool
  trees : List (String × List RawEntry)
deriving DecidableEq, Repr

/-- `srcFile->Get(name)`: look a tree up by name. -/
def SourceFile.get (f : SourceFile) (name : String) : Option (List RawEntry) :=
  f.trees.lookup name

/-- Errors raised by the Reader.  `configurationError` belongs to the
specification's error taxonomy (empty partition-name sequence);
`undefinedBehavior` marks the places where the C++ source performs an
operation with no defined meaning (invalid iterator use, out-of-range
`GetEntry`). -/
inductive ReaderError
  | sourceInvalid
  | missingTree (name : String)
  | configurationError
  | undefinedBehavior
deriving DecidableEq, Repr

/-- The mutable state of a `Reader` object.  `curTreeIdx` is the position of
the `curTreeNameIt` iterator inside `treeNames` (`= treeNames.length` means
the past-the-end iterator).  `curEntries` holds the content of the currently
bound tree (`curTree`), with `nEntries` and `curEntry` the entry counters. -/
structure ReaderState where
  treeNames : List String
  curTreeIdx : Nat
  isMC : Bool
  curSystType : SystType
  curSystDirection : SystDirection
  applyBTagReweighting : Bool
  curEntries : List RawEntry
  curEntry : Nat
  nEntries : Nat
  leptons : List Lepton
  jets : List Jet
  jetsJECUp : List Jet
  jetsJECDown : List Jet
  met : MET
  metJECUp : MET
  metJECDown : MET
  nPV : Nat
  rawWeight : ℤ
  weight : ℤ
  weightCached : Bool
deriving DecidableEq, Repr, Inhabited

/-- Values of the data members that the constructor leaves uninitialized
(they are indeterminate in the C++ source until the first `GetEntry`):
the MET buffers, the vertex count, the raw weight and the cache flag. -/
structure InitState where
  met : MET
  metJECUp : MET
  metJECDown : MET
  nPV : Nat
  rawWeight : ℤ
  weightCached : Bool
deriving DecidableEq, Repr, Inhabited

/-- `Reader::GetTree(name)`: bind the named tree, reset the entry counters,
rebind the buffers, and set `weight = 1.`.  Throws if the tree is missing. -/
def GetTree (f : SourceFile) (name : String) (s : ReaderState) :
    Except ReaderError ReaderState :=
  match f.get name with
  | none => .error (.missingTree name)
  | some entries =>
      .ok { s with curEntries := entries, nEntries := entries.length,
                   curEntry := 0, weight := 1 }

/-- The `Reader` constructor: validate the file handle, then bind the first
tree via `GetTree(*curTreeNameIt)`.  With an empty name sequence
`*treeNames.begin()` dereferences the past-the-end iterator (undefined
behavior); no emptiness check exists in the source. -/
def Reader.construct (f : SourceFile) (treeNames : List String) (isMC : Bool)
    (init : InitState) : Except ReaderError ReaderState :=
  let s0 : ReaderState :=
    { treeNames := treeNames, curTreeIdx := 0, isMC := isMC,
      curSystType := .Nominal, curSystDirection := .Up,
      applyBTagReweighting := true,
      curEntries := [], curEntry := 0, nEntries := 0,
      leptons := [], jets := [], jetsJECUp := [], jetsJECDown := [],
      met := init.met, metJECUp := init.metJECUp, metJECDown := init.metJECDown,
      nPV := init.nPV, rawWeight := init.rawWeight,
      weight := 1, weightCached := init.weightCached }
  if f.valid = false then .error .sourceInvalid
  else
    match treeNames[0]? with
    | none => .error .undefinedBehavior
    | some name => GetTree f name s0

/-- Lines 54–97 of `ReadNextEvent`: copy the buffers filled by `GetEntry`
into the object collections, sort them in non-increasing pt order, and
invalidate the weight cache.  For a data sample the JEC blocks and the raw
weight are not bound, so those members keep their previous values. -/
def decodeEvent (s : ReaderState) (e : RawEntry) : ReaderState :=
  let s1 := { s with
    leptons := sortLeptons e.leptons,
    jets := sortJets e.jets,
    met := e.met,
    nPV := e.nPV,
    weightCached := false }
  if s.isMC then
    { s1 with
      jetsJECUp := sortJets e.jetsJECUp,
      jetsJECDown := sortJets e.jetsJECDown,
      metJECUp := e.metJECUp,
      metJECDown := e.metJECDown,
      rawWeight := e.rawWeight }
  else s1

/-- `curTree->GetEntry(curEntry); ++curEntry;` followed by the decode block.
`GetEntry` with an index outside `[0, nEntries)` is undefined per the
storage contract and is modelled as an error. -/
def loadAndDecode (s : ReaderState) : Except ReaderError (Bool × ReaderState) :=
  match s.curEntries[s.curEntry]? with
  | none => .error .undefinedBehavior
  | some e => .ok (true, decodeEvent { s with curEntry := s.curEntry + 1 } e)

/-- `Reader::ReadNextEvent()`. When the current tree is exhausted the
iterator is incremented; if it reaches `end()` the call returns `false`,
otherwise the next tree is bound and an entry is loaded unconditionally.
Incrementing an iterator already at `end()` yields an out-of-range
dereference, modelled as an error. -/
def ReadNextEvent (f : SourceFile) (s : ReaderState) :
    Except ReaderError (Bool × ReaderState) :=
  if s.curEntry = s.nEntries then
    if s.curTreeIdx + 1 = s.treeNames.length then
      .ok (false, { s with curTreeIdx := s.curTreeIdx + 1 })
    else
      match s.treeNames[s.curTreeIdx + 1]? with
      | none => .error .undefinedBehavior
      | some name =>
          (GetTree f name { s with curTreeIdx := s.curTreeIdx + 1 }).bind loadAndDecode
  else
    loadAndDecode s

/-- `Reader::Rewind()`: reset the name iterator to `begin()`, release the
current tree, and rebind the first tree.  Dereferencing `begin()` of an
empty sequence is undefined behavior. -/
def Rewind (f : SourceFile) (s : ReaderState) : Except ReaderError ReaderState :=
  let s1 := { s with curTreeIdx := 0 }
  match s1.treeNames[0]? with
  | none => .error .undefinedBehavior
  | some name => GetTree f name s1

/-- `Reader::SetSystematics(systType, systDirection)`: store the pair,
force direction `Up` for `Nominal`, and unconditionally invalidate the
weight cache. -/
def SetSystematics (systType : SystType) (systDirection : SystDirection)
    (s : ReaderState) : ReaderState :=
  let d := if systType = SystType.Nominal then SystDirection.Up else systDirection
  { s with curSystType := systType, curSystDirection := d, weightCached := false }

/-- `Reader::GetLeptons()`. -/
def GetLeptons (s : ReaderState) : List Lepton := s.leptons

/-- `Reader::GetJets()`: JEC-shifted collection for simulation with the JEC
systematic selected, nominal collection otherwise. -/
def GetJets (s : ReaderState) : List Jet :=
  if s.isMC = true ∧ s.curSystType = SystType.JEC then
    if s.curSystDirection = SystDirection.Up then s.jetsJECUp else s.jetsJECDown
  else s.jets

/-- `Reader::GetMET()`: same variant-selection rule as `GetJets`. -/
def GetMET (s : ReaderState) : MET :=
  if s.isMC = true ∧ s.curSystType = SystType.JEC then
    if s.curSystDirection = SystDirection.Up then s.metJECUp else s.metJECDown
  else s.met

/-- `Reader::GetNumPV()`. -/
def GetNumPV (s : ReaderState) : Nat := s.nPV

/-- `Reader::SwitchBTagReweighting(on)`. -/
def SwitchBTagReweighting (enabled : Bool) (s : ReaderState) : ReaderState :=
  { s with applyBTagReweighting := enabled }

/-- The external b-tag reweighting model (`csvReweighter.CalculateJetWeight`):
a per-jet multiplicative factor depending on the systematic selection. -/
def BTagModel : Type := Jet → SystType → SystDirection → ℤ

/-- The loop body of the b-tag reweighting step: multiply the factor in
unless it is exactly zero. -/
def btagStep (model : BTagModel) (t : SystType) (d : SystDirection)
    (acc : ℤ) (j : Jet) : ℤ :=
  let perJetBTagWeight := model j t d
  if perJetBTagWeight ≠ 0 then acc * perJetBTagWeight else acc

/-- `Reader::GetWeight()`.  Returns the weight, the updated state, and the
number of calls this invocation made to the reweighting model (the source
calls `CalculateJetWeight` once per nominal jet when it recomputes with
reweighting enabled, and never otherwise). -/
def GetWeight (model : BTagModel) (s : ReaderState) : ℤ × ReaderState × Nat :=
  if s.isMC = false then (1, s, 0)
  else if s.weightCached = true then (s.weight, s, 0)
  else
    let w :=
      if s.applyBTagReweighting = true then
        s.jets.foldl (btagStep model s.curSystType s.curSystDirection) s.rawWeight
      else s.rawWeight
    let calls := if s.applyBTagReweighting = true then s.jets.length else 0
    (w, { s with weight := w, weightCached := true }, calls)

instance {ε α : Type} [DecidableEq ε] [DecidableEq α] : DecidableEq (Except ε α) := fun a b =>
  match a, b with
  | .error e, .error f =>
      decidable_of_iff (e = f) ⟨fun h => by rw [h], fun h => by injection h⟩
  | .error _, .ok _ => .isFalse fun h => Except.noConfusion h
  | .ok _, .error _ => .isFalse fun h => Except.noConfusion h
  | .ok x, .ok y =>
      decidable_of_iff (x = y) ⟨fun h => by rw [h], fun h => by injection h⟩

/-! ### Concrete example values used by witnesses and counterexamples -/

/-- A b-quark jet. -/
def jetB : Jet := ⟨50, 1, 0, 900, 5⟩

/-- A light jet with smaller transverse momentum. -/
def jetL : Jet := ⟨30, -1, 2, 100, 21⟩

/-- An example electron. -/
def lepE : Lepton := ⟨11, 40, 0, 1, 5⟩

/-- An example muon with larger transverse momentum. -/
def lepM : Lepton := ⟨13, 45, 2, -1, 4⟩

/-- An example event entry; the object lists are deliberately not sorted
by transverse momentum. -/
def entryA : RawEntry :=
  { leptons := [lepE, lepM], jets := [jetL, jetB], met := ⟨25, 0⟩,
    jetsJECUp := [jetL, jetB], jetsJECDown := [jetB, jetL],
    metJECUp := ⟨26, 0⟩, metJECDown := ⟨24, 0⟩, rawWeight := 2, nPV := 7 }

/-- A second example event entry. -/
def entryB : RawEntry :=
  { leptons := [lepM], jets := [jetB], met := ⟨35, 1⟩,
    jetsJECUp := [jetB], jetsJECDown := [jetB],
    metJECUp := ⟨36, 1⟩, metJECDown := ⟨34, 1⟩, rawWeight := 3, nPV := 11 }

/-- Indeterminate-member values used when constructing example Readers. -/
def initA : InitState := ⟨⟨0, 0⟩, ⟨0, 0⟩, ⟨0, 0⟩, 0, 0, false⟩

/-- A valid single-tree source file. -/
def fileA : SourceFile := ⟨true, [("t", [entryA])]⟩

/-- A reweighting model returning factor 3 for b-flavour jets and 2 otherwise. -/
def modelTwo : BTagModel := fun j _ _ => if j.flavour = 5 then 3 else 2

/-- A reweighting model returning factor 0 for b-flavour jets and 2 otherwise. -/
def modelZeroB : BTagModel := fun j _ _ => if j.flavour = 5 then 0 else 2

/-- The state after constructing a Reader over `fileA`. -/
def trA0 : ReaderState := (Reader.construct fileA ["t"] true initA).toOption.getD default

/-- The state after the first (successful) `ReadNextEvent` on `trA0`. -/
def trA1 : ReaderState := ((ReadNextEvent fileA trA0).toOption.getD (true, default)).2

/-- The state after a `Weight()` computation on `trA1` (cache now valid). -/
def trA2 : ReaderState := (GetWeight modelTwo trA1).2.1

/-- The state after the exhausted `ReadNextEvent` on `trA2` (returned `false`). -/
def trA3 : ReaderState := ((ReadNextEvent fileA trA2).toOption.getD (true, default)).2

/-! ### C3: variant selection in the jet and MET accessors -/

/-- **C3**: for a simulation Reader with Variation Selector (JEC, Up),
`GetJets`/`GetMET` return the shift-up collections; with (JEC, Down) the
shift-down ones; with a non-JEC type (in particular Nominal), and for any
non-simulation Reader, the nominal ones. -/
theorem c3_variant_selection (s : ReaderState) :
    (s.isMC = true → s.curSystType = SystType.JEC →
      (s.curSystDirection = SystDirection.Up →
        GetJets s = s.jetsJECUp ∧ GetMET s = s.metJECUp) ∧
      (s.curSystDirection = SystDirection.Down →
        GetJets s = s.jetsJECDown ∧ GetMET s = s.metJECDown)) ∧
    (s.curSystType ≠ SystType.JEC → GetJets s = s.jets ∧ GetMET s = s.met) ∧
    (s.isMC = false → GetJets s = s.jets ∧ GetMET s = s.met) := by
  unfold GetJets GetMET
  refine ⟨fun hmc hjec => ⟨fun hup => ?_, fun hdown => ?_⟩,
    fun hne => ?_, fun hdata => ?_⟩ <;> simp_all

/-- Witness for C3 at a concrete simulation state with (JEC, Up). -/
theorem c3_variant_selection_witness :
    GetJets { trA1 with curSystType := SystType.JEC } =
      { trA1 with curSystType := SystType.JEC }.jetsJECUp ∧
    GetMET { trA1 with curSystType := SystType.JEC } =
      { trA1 with curSystType := SystType.JEC }.metJECUp :=
  ((c3_variant_selection { trA1 with curSystType := SystType.JEC }).1
    (by decide) rfl).1 (by decide)

/-! ### C9: SwitchBTagReweighting only toggles the flag -/

/-- **C9**: `SwitchBTagReweighting` changes only the reweighting-enabled
flag; every other member (cached weight, cache flag, decoded collections,
variation selector, cursors) is untouched, and a subsequent `Weight()` call
on a simulation Reader with a valid cache still returns the cached value
with no call into the reweighting model. -/
theorem c9_switch_btag_frame (enabled : Bool) (s : ReaderState) :
    SwitchBTagReweighting enabled s = { s with applyBTagReweighting := enabled } ∧
    (s.weightCached = true → s.isMC = true → ∀ model : BTagModel,
      GetWeight model (SwitchBTagReweighting enabled s) =
        (s.weight, SwitchBTagReweighting enabled s, 0)) := by
  refine ⟨rfl, fun hc hmc model => ?_⟩
  simp [GetWeight, SwitchBTagReweighting, hc, hmc]

/-- Witness for C9 at a concrete cached simulation state. -/
theorem c9_switch_btag_frame_witness :
    GetWeight modelTwo (SwitchBTagReweighting false trA2) =
      (trA2.weight, SwitchBTagReweighting false trA2, 0) :=
  (c9_switch_btag_frame false trA2).2 (by decide) (by decide) modelTwo

/-! ### C10: Rewind resets the stored weight but not the cache flag -/

/-- **C10**: `Rewind` leaves the cache-validity flag unchanged while the
rebinding (`GetTree`) resets the stored weight to 1; hence for a simulation
Reader whose cache is valid, `Weight()` called after `Rewind` (before any
`ReadNextEvent`) returns 1 instead of the previously cached value. -/
theorem c10_rewind_resets_weight (f : SourceFile) (s sr : ReaderState)
    (model : BTagModel) (hmc : s.isMC = true) (hc : s.weightCached = true)
    (hr : Rewind f s = .ok sr) :
    sr.weightCached = true ∧ sr.weight = 1 ∧ GetWeight model sr = (1, sr, 0) := by
  simp only [Rewind] at hr
  split at hr
  · exact absurd hr (by simp)
  · simp only [GetTree] at hr
    split at hr
    · exact absurd hr (by simp)
    · injection hr with hr
      subst hr
      refine ⟨hc, rfl, ?_⟩
      simp [GetWeight, hc, hmc]

/-- Witness for C10 on a concrete valid-cache state over `fileA`. -/
theorem c10_rewind_resets_weight_witness :
    ((Rewind fileA trA2).toOption.getD default).weightCached = true ∧
    ((Rewind fileA trA2).toOption.getD default).weight = 1 ∧
    GetWeight modelTwo ((Rewind fileA trA2).toOption.getD default) =
      (1, (Rewind fileA trA2).toOption.getD default, 0) :=
  c10_rewind_resets_weight fileA trA2 ((Rewind fileA trA2).toOption.getD default)
    modelTwo (by decide) (by decide) (by decide)

/-! ### C7: construction with an empty partition-name sequence -/

/-- The amended C7: constructing with an empty name sequence does not raise
any configuration error — the constructor dereferences `begin()` of the
empty list (undefined behavior, modelled as `undefinedBehavior`). -/
theorem c7_empty_sequence (f : SourceFile) (isMC : Bool) (init : InitState)
    (hv : f.valid = true) :
    Reader.construct f [] isMC init = .error ReaderError.undefinedBehavior := by
  simp [Reader.construct, hv]

/-- Counterexample to C7 as stated: on a valid file with an empty
partition-name sequence, construction does not fail with
`ConfigurationError`; it runs into undefined behavior (there is no
emptiness check in the source). -/
theorem c7_empty_sequence_counterexample :
    Reader.construct fileA [] true initA = .error ReaderError.undefinedBehavior ∧
    Reader.construct fileA [] true initA ≠ .error ReaderError.configurationError := by
  decide

/-- Witness for the amended C7 at a concrete valid file. -/
theorem c7_empty_sequence_witness :
    Reader.construct fileA [] true initA = .error ReaderError.undefinedBehavior :=
  c7_empty_sequence fileA true initA (by decide)

/-! ### C5: zero factors are skipped in the weight product -/

/-- The recomputed event weight as the specification describes it: the raw
stored weight times the product of the model factors of exactly those
nominal jets whose factor is not zero. -/
def specRecomputedWeight (model : BTagModel) (s : ReaderState) : ℤ :=
  s.rawWeight *
    ((s.jets.filter fun j =>
        decide (model j s.curSystType s.curSystDirection ≠ 0)).map
      fun j => model j s.curSystType s.curSystDirection).prod

/-- The reweighting loop of `GetWeight` computes exactly the
specification-side product over nonzero factors. -/
lemma foldl_btagStep (model : BTagModel) (t : SystType) (d : SystDirection) :
    ∀ (js : List Jet) (a : ℤ),
      js.foldl (btagStep model t d) a =
        a * ((js.filter fun j => decide (model j t d ≠ 0)).map
          fun j => model j t d).prod
  | [], a => by simp
  | j :: js, a => by
      by_cases h : model j t d = 0
      · simp only [List.foldl_cons, btagStep, h, ne_eq, not_true_eq_false,
          if_false, List.filter_cons, decide_not, decide_eq_true_eq]
        rw [foldl_btagStep model t d js a]
        simp [h]
      · simp only [List.foldl_cons, btagStep, ne_eq, h, not_false_eq_true, if_true,
          List.filter_cons]
        rw [foldl_btagStep model t d js (a * model j t d)]
        simp [h, mul_assoc]

/-- **C5**: when `Weight()` recomputes for a simulation Reader with b-tag
reweighting enabled, the result is the raw stored weight times the model
factor of every nominal jet whose factor is nonzero; jets with factor
exactly zero contribute nothing, so the whole weight is nonzero whenever
the raw weight is. -/
theorem c5_zero_factor_skip (model : BTagModel) (s : ReaderState)
    (hmc : s.isMC = true) (hnc : s.weightCached = false)
    (hbt : s.applyBTagReweighting = true) :
    (GetWeight model s).1 = specRecomputedWeight model s ∧
    (s.rawWeight ≠ 0 → (GetWeight model s).1 ≠ 0) := by
  have h1 : (GetWeight model s).1 =
      s.jets.foldl (btagStep model s.curSystType s.curSystDirection) s.rawWeight := by
    simp [GetWeight, hmc, hnc, hbt]
  rw [h1, foldl_btagStep]
  refine ⟨rfl, fun hr => mul_ne_zero hr (List.prod_ne_zero fun hmem => ?_)⟩
  obtain ⟨j, hj, hj0⟩ := List.mem_map.1 hmem
  have h2 := (List.mem_filter.1 hj).2
  rw [hj0] at h2
  simp at h2

/-- Witness for C5: a concrete recomputation in which the b jet's factor is
zero and is skipped rather than zeroing the event weight. -/
theorem c5_zero_factor_skip_witness :
    (GetWeight modelZeroB trA1).1 = specRecomputedWeight modelZeroB trA1 ∧
    (trA1.rawWeight ≠ 0 → (GetWeight modelZeroB trA1).1 ≠ 0) :=
  c5_zero_factor_skip modelZeroB trA1 (by decide) (by decide) (by decide)

/-! ### C2: collections are pt-sorted after every successful read -/

/-- The lepton list produced by the sort is non-increasing in pt. -/
lemma sortLeptons_chain (l : List Lepton) : List.Chain' ptGeLep (sortLeptons l) :=
  List.Pairwise.chain' (List.sorted_insertionSort ptGeLep l)

/-- The jet list produced by the sort is non-increasing in pt. -/
lemma sortJets_chain (l : List Jet) : List.Chain' ptGeJet (sortJets l) :=
  List.Pairwise.chain' (List.sorted_insertionSort ptGeJet l)

/-- What the decode block produces: sorted collections, buffers copied,
cache invalidated; for data samples the JEC members are untouched. -/
lemma decodeEvent_fields (s : ReaderState) (e : RawEntry) :
    (decodeEvent s e).leptons = sortLeptons e.leptons ∧
    (decodeEvent s e).jets = sortJets e.jets ∧
    (decodeEvent s e).weightCached = false ∧
    (s.isMC = true →
      (decodeEvent s e).jetsJECUp = sortJets e.jetsJECUp ∧
      (decodeEvent s e).jetsJECDown = sortJets e.jetsJECDown) := by
  unfold decodeEvent
  split <;> simp_all

/-- A successful `ReadNextEvent` always produces its final state through
`decodeEvent`, applied to a state with the same sample kind, variation
selector and reweighting flag. -/
lemma readNextEvent_true_decode (f : SourceFile) (s s' : ReaderState)
    (h : ReadNextEvent f s = .ok (true, s')) :
    ∃ (s₂ : ReaderState) (e : RawEntry),
      s₂.isMC = s.isMC ∧ s₂.curSystType = s.curSystType ∧
      s₂.curSystDirection = s.curSystDirection ∧
      s₂.applyBTagReweighting = s.applyBTagReweighting ∧
      s₂.treeNames = s.treeNames ∧
      s' = decodeEvent s₂ e := by
  unfold ReadNextEvent at h
  split at h
  · split at h
    · exact absurd h (by simp)
    · split at h
      · exact absurd h (by simp)
      · rename_i name heq
        unfold GetTree at h
        cases hg : SourceFile.get f name with
        | none => rw [hg] at h; exact absurd h (by simp [Except.bind])
        | some entries =>
          rw [hg] at h
          simp only [Except.bind] at h
          unfold loadAndDecode at h
          split at h
          · exact absurd h (by simp)
          · rename_i e he
            injection h with h
            injection h with _ h
            refine ⟨_, e, ?_, ?_, ?_, ?_, ?_, h.symm⟩ <;> rfl
  · unfold loadAndDecode at h
    split at h
    · exact absurd h (by simp)
    · rename_i e he
      injection h with h
      injection h with _ h
      refine ⟨_, e, ?_, ?_, ?_, ?_, ?_, h.symm⟩ <;> rfl

/-- **C2**: after every successful `ReadNextEvent`, the lepton collection
and every jet collection (nominal, and both JEC variants for simulation
samples) are in non-increasing transverse-momentum order: each adjacent
pair satisfies "earlier pt ≥ later pt". -/
theorem c2_sorted_after_read (f : SourceFile) (s s' : ReaderState)
    (h : ReadNextEvent f s = .ok (true, s')) :
    List.Chain' ptGeLep s'.leptons ∧ List.Chain' ptGeJet s'.jets ∧
    (s.isMC = true →
      List.Chain' ptGeJet s'.jetsJECUp ∧ List.Chain' ptGeJet s'.jetsJECDown) := by
  obtain ⟨s₂, e, hmc, -, -, -, -, rfl⟩ := readNextEvent_true_decode f s s' h
  obtain ⟨hl, hj, -, hjec⟩ := decodeEvent_fields s₂ e
  refine ⟨hl ▸ sortLeptons_chain _, hj ▸ sortJets_chain _, fun hm => ?_⟩
  obtain ⟨hu, hd⟩ := hjec (hmc.trans hm)
  exact ⟨hu ▸ sortJets_chain _, hd ▸ sortJets_chain _⟩

/-- Witness for C2 on a concrete read whose raw buffers are unsorted. -/
theorem c2_sorted_after_read_witness :
    List.Chain' ptGeLep trA1.leptons ∧ List.Chain' ptGeJet trA1.jets ∧
    (trA0.isMC = true →
      List.Chain' ptGeJet trA1.jetsJECUp ∧ List.Chain' ptGeJet trA1.jetsJECDown) :=
  c2_sorted_after_read fileA trA0 trA1 (by decide)

/-! ### C1: weight-cache invalidation over operation sequences -/

/-- A caller-visible mutating operation other than `Weight()` itself
(`Rewind` is treated separately; see C10). -/
inductive ReaderOp
  | read
  | setSyst (t : SystType) (d : SystDirection)
  | switchBTag (enabled : Bool)
deriving DecidableEq, Repr

/-- Run a sequence of operations, collecting the boolean results of the
`ReadNextEvent` calls in order. -/
def runOps (f : SourceFile) : List ReaderOp → ReaderState →
    Except ReaderError (ReaderState × List Bool)
  | [], s => .ok (s, [])
  | .read :: rest, s =>
      (ReadNextEvent f s).bind fun r =>
        (runOps f rest r.2).map fun p => (p.1, r.1 :: p.2)
  | .setSyst t d :: rest, s => runOps f rest (SetSystematics t d s)
  | .switchBTag b :: rest, s => runOps f rest (SwitchBTagReweighting b s)

/-- Whether an operation is a `SetSystematics` call. -/
def isSetSyst : ReaderOp → Bool
  | .setSyst _ _ => true
  | _ => false

lemma except_bind_ok {ε α β : Type} (x : Except ε α) (g : α → Except ε β) (b : β)
    (h : x.bind g = .ok b) : ∃ a, x = .ok a ∧ g a = .ok b := by
  cases x with
  | error e => exact absurd h (by simp [Except.bind])
  | ok a => exact ⟨a, rfl, h⟩

lemma except_map_ok {ε α β : Type} (x : Except ε α) (g : α → β) (b : β)
    (h : x.map g = .ok b) : ∃ a, x = .ok a ∧ g a = b := by
  cases x with
  | error e => exact absurd h (by simp [Except.map])
  | ok a =>
      simp only [Except.map] at h
      injection h with h
      exact ⟨a, rfl, h⟩

/-- Members that `decodeEvent` never touches. -/
lemma decodeEvent_frame (s : ReaderState) (e : RawEntry) :
    (decodeEvent s e).isMC = s.isMC ∧
    (decodeEvent s e).curSystType = s.curSystType ∧
    (decodeEvent s e).curSystDirection = s.curSystDirection ∧
    (decodeEvent s e).applyBTagReweighting = s.applyBTagReweighting ∧
    (decodeEvent s e).treeNames = s.treeNames ∧
    (decodeEvent s e).weight = s.weight := by
  unfold decodeEvent
  split <;> simp

/-- An exhausted `ReadNextEvent` call that returns `false` only advances the
partition cursor: every other member is untouched. -/
lemma readNextEvent_false_state (f : SourceFile) (s s' : ReaderState)
    (h : ReadNextEvent f s = .ok (false, s')) :
    s' = { s with curTreeIdx := s.curTreeIdx + 1 } := by
  unfold ReadNextEvent at h
  split at h
  · split at h
    · injection h with h
      injection h with _ h
      exact h.symm
    · split at h
      · exact absurd h (by simp)
      · obtain ⟨r, -, hload⟩ := except_bind_ok _ _ _ h
        unfold loadAndDecode at hload
        split at hload
        · exact absurd hload (by simp)
        · injection hload with hload
          injection hload with hb _
          exact absurd hb (by simp)
  · unfold loadAndDecode at h
    split at h
    · exact absurd h (by simp)
    · injection h with h
      injection h with hb _
      exact absurd hb (by simp)

/-- Frame facts about one `ReadNextEvent` call: sample kind, variation
selector, reweighting flag and tree-name list are preserved; a `false`
result leaves the cache members alone; a `true` result clears the cache
validity flag. -/
lemma readNextEvent_ok_frame (f : SourceFile) (s : ReaderState) (b : Bool)
    (s' : ReaderState) (h : ReadNextEvent f s = .ok (b, s')) :
    s'.isMC = s.isMC ∧ s'.curSystType = s.curSystType ∧
    s'.curSystDirection = s.curSystDirection ∧
    s'.applyBTagReweighting = s.applyBTagReweighting ∧
    s'.treeNames = s.treeNames ∧
    (b = false → s'.weightCached = s.weightCached ∧ s'.weight = s.weight) ∧
    (b = true → s'.weightCached = false) := by
  cases b with
  | false =>
      have := readNextEvent_false_state f s s' h
      subst this
      exact ⟨rfl, rfl, rfl, rfl, rfl, fun _ => ⟨rfl, rfl⟩, fun hb => Bool.noConfusion hb⟩
  | true =>
      obtain ⟨s₂, e, hmc, hst, hsd, hbt, htn, rfl⟩ := readNextEvent_true_decode f s s' h
      obtain ⟨f1, f2, f3, f4, f5, -⟩ := decodeEvent_frame s₂ e
      obtain ⟨-, -, hcache, -⟩ := decodeEvent_fields s₂ e
      exact ⟨f1.trans hmc, f2.trans hst, f3.trans hsd, f4.trans hbt, f5.trans htn,
        fun hb => Bool.noConfusion hb, fun _ => hcache⟩

/-- `runOps` preserves the sample kind. -/
lemma runOps_isMC (f : SourceFile) :
    ∀ (ops : List ReaderOp) (s s' : ReaderState) (bs : List Bool),
      runOps f ops s = .ok (s', bs) → s'.isMC = s.isMC
  | [], s, s', bs, h => by
      simp only [runOps] at h
      injection h with h
      injection h with h1 h2
      rw [← h1]
  | .read :: rest, s, s', bs, h => by
      simp only [runOps] at h
      obtain ⟨r, hr, h2⟩ := except_bind_ok _ _ _ h
      obtain ⟨p, hp, h3⟩ := except_map_ok _ _ _ h2
      injection h3 with h31 h32
      obtain ⟨b, r2⟩ := r
      obtain ⟨hfr, -⟩ := readNextEvent_ok_frame f s b r2 hr
      rw [← h31]
      exact (runOps_isMC f rest r2 p.1 p.2 hp).trans hfr
  | .setSyst t d :: rest, s, s', bs, h => by
      simp only [runOps] at h
      exact runOps_isMC f rest (SetSystematics t d s) s' bs h
  | .switchBTag b :: rest, s, s', bs, h => by
      simp only [runOps] at h
      exact runOps_isMC f rest (SwitchBTagReweighting b s) s' bs h

/-- Once the cache-validity flag is down, no operation in `runOps` raises it
(only `Weight()` itself does). -/
lemma runOps_cached_false (f : SourceFile) :
    ∀ (ops : List ReaderOp) (s s' : ReaderState) (bs : List Bool),
      runOps f ops s = .ok (s', bs) → s.weightCached = false →
      s'.weightCached = false
  | [], s, s', bs, h, hc => by
      simp only [runOps] at h
      injection h with h
      injection h with h1 h2
      rw [← h1]
      exact hc
  | .read :: rest, s, s', bs, h, hc => by
      simp only [runOps] at h
      obtain ⟨r, hr, h2⟩ := except_bind_ok _ _ _ h
      obtain ⟨p, hp, h3⟩ := except_map_ok _ _ _ h2
      injection h3 with h31 h32
      obtain ⟨b, r2⟩ := r
      obtain ⟨-, -, -, -, -, hfalse, htrue⟩ := readNextEvent_ok_frame f s b r2 hr
      rw [← h31]
      refine runOps_cached_false f rest r2 p.1 p.2 hp ?_
      cases b with
      | false => exact (hfalse rfl).1.trans hc
      | true => exact htrue rfl
  | .setSyst t d :: rest, s, s', bs, h, hc => by
      simp only [runOps] at h
      exact runOps_cached_false f rest (SetSystematics t d s) s' bs h rfl
  | .switchBTag b :: rest, s, s', bs, h, hc => by
      simp only [runOps] at h
      exact runOps_cached_false f rest (SwitchBTagReweighting b s) s' bs h hc

/-- With no `SetSystematics` call and no successful `ReadNextEvent`, the
cache members (validity flag and stored weight) are untouched. -/
lemma runOps_no_invalidation (f : SourceFile) :
    ∀ (ops : List ReaderOp) (s s' : ReaderState) (bs : List Bool),
      runOps f ops s = .ok (s', bs) → ops.any isSetSyst = false →
      bs.all (fun x => x = false) = true →
      s'.weightCached = s.weightCached ∧ s'.weight = s.weight
  | [], s, s', bs, h, hno, hall => by
      simp only [runOps] at h
      injection h with h
      injection h with h1 h2
      rw [← h1]
      exact ⟨rfl, rfl⟩
  | .read :: rest, s, s', bs, h, hno, hall => by
      simp only [runOps] at h
      obtain ⟨r, hr, h2⟩ := except_bind_ok _ _ _ h
      obtain ⟨p, hp, h3⟩ := except_map_ok _ _ _ h2
      injection h3 with h31 h32
      obtain ⟨b, r2⟩ := r
      rw [← h32] at hall
      simp only [List.all_cons, Bool.and_eq_true, decide_eq_true_eq] at hall
      obtain ⟨hb, hall'⟩ := hall
      obtain ⟨-, -, -, -, -, hfalse, -⟩ := readNextEvent_ok_frame f s b r2 hr
      obtain ⟨hc1, hw1⟩ := hfalse hb
      simp only [List.any_cons, Bool.or_eq_false_iff] at hno
      obtain ⟨hc2, hw2⟩ := runOps_no_invalidation f rest r2 p.1 p.2 hp hno.2
        (by simpa using hall')
      rw [← h31]
      exact ⟨hc2.trans hc1, hw2.trans hw1⟩
  | .setSyst t d :: rest, s, s', bs, h, hno, hall => by
      simp [isSetSyst] at hno
  | .switchBTag b :: rest, s, s', bs, h, hno, hall => by
      simp only [runOps] at h
      simp only [List.any_cons, Bool.or_eq_false_iff] at hno
      exact runOps_no_invalidation f rest (SwitchBTagReweighting b s) s' bs h hno.2 hall

/-- A `SetSystematics` call or a successful `ReadNextEvent` anywhere in the
sequence leaves the cache-validity flag down at the end. -/
lemma runOps_invalidation (f : SourceFile) :
    ∀ (ops : List ReaderOp) (s s' : ReaderState) (bs : List Bool),
      runOps f ops s = .ok (s', bs) →
      (ops.any isSetSyst = true ∨ bs.any (fun x => x = true) = true) →
      s'.weightCached = false
  | [], s, s', bs, h, hinv => by
      simp only [runOps] at h
      injection h with h
      injection h with h1 h2
      rw [← h2] at hinv
      simp [isSetSyst] at hinv
  | .read :: rest, s, s', bs, h, hinv => by
      simp only [runOps] at h
      obtain ⟨r, hr, h2⟩ := except_bind_ok _ _ _ h
      obtain ⟨p, hp, h3⟩ := except_map_ok _ _ _ h2
      injection h3 with h31 h32
      obtain ⟨b, r2⟩ := r
      obtain ⟨-, -, -, -, -, -, htrue⟩ := readNextEvent_ok_frame f s b r2 hr
      rw [← h31]
      cases b with
      | true => exact runOps_cached_false f rest r2 p.1 p.2 hp (htrue rfl)
      | false =>
          refine runOps_invalidation f rest r2 p.1 p.2 hp ?_
          rw [← h32] at hinv
          simpa [isSetSyst] using hinv
  | .setSyst t d :: rest, s, s', bs, h, hinv => by
      simp only [runOps] at h
      exact runOps_cached_false f rest (SetSystematics t d s) s' bs h rfl
  | .switchBTag b :: rest, s, s', bs, h, hinv => by
      simp only [runOps] at h
      refine runOps_invalidation f rest (SwitchBTagReweighting b s) s' bs h ?_
      simpa [isSetSyst] using hinv

/-- **C1 (amended)**: for a simulation Reader whose weight is cached, run any
sequence of `ReadNextEvent` / `SetSystematics` / `SwitchBTagReweighting`
calls.  `Weight()` recomputes — invoking the reweighting model once per
nominal jet when reweighting is enabled — if and only if a `SetSystematics`
call or a **successful** `ReadNextEvent` (one that returned `true`) occurred;
otherwise it returns the previously cached value unchanged with zero calls
into the model.  (A `ReadNextEvent` call that returns `false` does not
invalidate the cache; the original claim counted it as an invalidation.) -/
theorem c1_cache_invalidation (f : SourceFile) (model : BTagModel)
    (ops : List ReaderOp) (s s' : ReaderState) (bs : List Bool)
    (hmc : s.isMC = true) (hc : s.weightCached = true)
    (hrun : runOps f ops s = .ok (s', bs)) :
    (ops.any isSetSyst = false → bs.all (fun x => x = false) = true →
      GetWeight model s' = (s.weight, s', 0)) ∧
    ((ops.any isSetSyst = true ∨ bs.any (fun x => x = true) = true) →
      s'.applyBTagReweighting = true →
      GetWeight model s' =
        (specRecomputedWeight model s',
         { s' with weight := specRecomputedWeight model s', weightCached := true },
         s'.jets.length)) := by
  have hmc' : s'.isMC = true := (runOps_isMC f ops s s' bs hrun).trans hmc
  constructor
  · intro hno hall
    obtain ⟨hcach, hw⟩ := runOps_no_invalidation f ops s s' bs hrun hno hall
    have hc' : s'.weightCached = true := hcach.trans hc
    simp [GetWeight, hmc', hc', hw]
  · intro hinv hbt
    have hcach := runOps_invalidation f ops s s' bs hrun hinv
    have h1 : GetWeight model s' =
        (s'.jets.foldl (btagStep model s'.curSystType s'.curSystDirection) s'.rawWeight,
         { s' with
             weight := s'.jets.foldl
               (btagStep model s'.curSystType s'.curSystDirection) s'.rawWeight,
             weightCached := true },
         s'.jets.length) := by
      simp [GetWeight, hmc', hcach, hbt]
    rw [h1, foldl_btagStep]
    rfl

/-- The state reached from the cached state `trA2` by a `SetSystematics`
call that selects (JEC, Up). -/
def trA2Set : ReaderState := SetSystematics SystType.JEC SystDirection.Up trA2

/-- Counterexample to C1 as stated: on the concrete trace over `fileA`, the
weight is cached in `trA2`; then `ReadNextEvent` **is called** (it returns
`false`, the stream being exhausted), yet the next `Weight()` call performs
zero calls into the reweighting model and returns the cached value — it
does not recompute, although a `ReadNextEvent` call intervened since the
last `Weight()` computation. -/
theorem c1_counterexample_failed_read :
    trA2.weightCached = true ∧ trA2.isMC = true ∧
    trA2.applyBTagReweighting = true ∧
    ReadNextEvent fileA trA2 = .ok (false, trA3) ∧
    trA3.jets.length = 2 ∧
    (GetWeight modelTwo trA3).2.2 = 0 ∧
    (GetWeight modelTwo trA3).1 = trA2.weight := by decide

/-- Witness for the amended C1: a `SetSystematics` call (even one selecting
a fresh pair) forces recomputation with one model call per nominal jet. -/
theorem c1_cache_invalidation_witness :
    GetWeight modelTwo trA2Set =
      (specRecomputedWeight modelTwo trA2Set,
       { trA2Set with weight := specRecomputedWeight modelTwo trA2Set,
                      weightCached := true },
       trA2Set.jets.length) :=
  (c1_cache_invalidation fileA modelTwo
      [ReaderOp.setSyst SystType.JEC SystDirection.Up] trA2 trA2Set []
      (by decide) (by decide) (by decide)).2 (Or.inl (by decide)) (by decide)

/-! ### C8: behavior at end of stream -/

/-- **C8 (amended)**: the first `ReadNextEvent` call made when the stream is
exhausted (cursor at entry count, current partition the last one) returns
`false` and leaves every member except the partition cursor — in particular
the decoded collections, MET, vertex count and weight cache — unchanged.
A further call without `Rewind` never yields `true` again: the source then
increments the past-the-end partition iterator and dereferences it, which
is undefined behavior (modelled as an error), not a clean `false`. -/
theorem c8_end_of_stream (f : SourceFile) (s : ReaderState)
    (hend : s.curEntry = s.nEntries) :
    (s.curTreeIdx + 1 = s.treeNames.length →
      ReadNextEvent f s = .ok (false, { s with curTreeIdx := s.curTreeIdx + 1 })) ∧
    (s.treeNames.length ≤ s.curTreeIdx →
      ReadNextEvent f s = .error ReaderError.undefinedBehavior) := by
  constructor
  · intro hlast
    unfold ReadNextEvent
    rw [if_pos hend, if_pos hlast]
  · intro hpast
    unfold ReadNextEvent
    rw [if_pos hend, if_neg (by omega)]
    have : s.treeNames[s.curTreeIdx + 1]? = none :=
      List.getElem?_eq_none (by omega)
    rw [this]

/-- Counterexample to C8 as stated: on the concrete exhausted Reader
`trA3` (reached after `ReadNextEvent` already returned `false` once), a
repeated `ReadNextEvent` call does not return `false` with unchanged state —
it runs into undefined behavior. -/
theorem c8_counterexample :
    ReadNextEvent fileA trA2 = .ok (false, trA3) ∧
    ReadNextEvent fileA trA3 = .error ReaderError.undefinedBehavior := by decide

/-- Witness for the amended C8 at the concrete exhausted states. -/
theorem c8_end_of_stream_witness :
    ReadNextEvent fileA trA2 = .ok (false, { trA2 with curTreeIdx := trA2.curTreeIdx + 1 }) ∧
    ReadNextEvent fileA trA3 = .error ReaderError.undefinedBehavior :=
  ⟨(c8_end_of_stream fileA trA2 (by decide)).1 (by decide),
   (c8_end_of_stream fileA trA3 (by decide)).2 (by decide)⟩

/-! ### C6: Rewind followed by ReadNextEvent reproduces the first event -/

/-- Inversion of a successful `Rewind`. -/
lemma rewind_ok_state (f : SourceFile) (s sr : ReaderState)
    (hr : Rewind f s = .ok sr) :
    ∃ nm es, s.treeNames[0]? = some nm ∧ f.get nm = some es ∧
      sr = { s with curTreeIdx := 0, curEntries := es, nEntries := es.length,
                    curEntry := 0, weight := 1 } := by
  simp only [Rewind] at hr
  split at hr
  · exact absurd hr (by simp)
  · rename_i nm hnm
    unfold GetTree at hr
    split at hr
    · exact absurd hr (by simp)
    · rename_i es hes
      injection hr with hr
      exact ⟨nm, es, hnm, hes, hr.symm⟩

/-- Inversion of a successful construction. -/
lemma construct_ok_state (f : SourceFile) (names : List String) (isMC : Bool)
    (init : InitState) (s0 : ReaderState)
    (h0 : Reader.construct f names isMC init = .ok s0) :
    f.valid = true ∧
    ∃ nm es, names[0]? = some nm ∧ f.get nm = some es ∧
      s0 = { treeNames := names, curTreeIdx := 0, isMC := isMC,
             curSystType := .Nominal, curSystDirection := .Up,
             applyBTagReweighting := true,
             curEntries := es, curEntry := 0, nEntries := es.length,
             leptons := [], jets := [], jetsJECUp := [], jetsJECDown := [],
             met := init.met, metJECUp := init.metJECUp,
             metJECDown := init.metJECDown,
             nPV := init.nPV, rawWeight := init.rawWeight,
             weight := 1, weightCached := init.weightCached } := by
  simp only [Reader.construct] at h0
  split at h0
  · exact absurd h0 (by simp)
  · rename_i hv
    refine ⟨by revert hv; cases f.valid <;> simp, ?_⟩
    split at h0
    · exact absurd h0 (by simp)
    · rename_i nm hnm
      unfold GetTree at h0
      split at h0
      · exact absurd h0 (by simp)
      · rename_i es hes
        injection h0 with h0
        exact ⟨nm, es, hnm, hes, h0.symm⟩

/-- Agreement of two Reader states on every member that steers control flow
(the members that may differ are only the decoded event buffers and the
cache-validity flag). -/
def coreAgree (a b : ReaderState) : Prop :=
  a.treeNames = b.treeNames ∧ a.curTreeIdx = b.curTreeIdx ∧ a.isMC = b.isMC ∧
  a.curSystType = b.curSystType ∧ a.curSystDirection = b.curSystDirection ∧
  a.applyBTagReweighting = b.applyBTagReweighting ∧
  a.curEntries = b.curEntries ∧ a.curEntry = b.curEntry ∧
  a.nEntries = b.nEntries ∧ a.weight = b.weight

/-- After decoding the same entry, two states agreeing on sample kind and
variation selection expose identical collections, MET, vertex count and
(recomputed) weight. -/
lemma decodeEvent_getters (model : BTagModel) (a b : ReaderState) (e : RawEntry)
    (hmc : a.isMC = b.isMC) (hst : a.curSystType = b.curSystType)
    (hsd : a.curSystDirection = b.curSystDirection)
    (hbt : a.applyBTagReweighting = b.applyBTagReweighting) :
    GetLeptons (decodeEvent a e) = GetLeptons (decodeEvent b e) ∧
    GetJets (decodeEvent a e) = GetJets (decodeEvent b e) ∧
    GetMET (decodeEvent a e) = GetMET (decodeEvent b e) ∧
    GetNumPV (decodeEvent a e) = GetNumPV (decodeEvent b e) ∧
    (GetWeight model (decodeEvent a e)).1 = (GetWeight model (decodeEvent b e)).1 := by
  cases hb : b.isMC with
  | false =>
      have ha : a.isMC = false := hmc.trans hb
      unfold decodeEvent GetLeptons GetJets GetMET GetNumPV GetWeight
      simp [ha, hb, hst, hsd]
  | true =>
      have ha : a.isMC = true := hmc.trans hb
      unfold decodeEvent GetLeptons GetJets GetMET GetNumPV GetWeight
      simp [ha, hb, hst, hsd, hbt]

/-- The decode block always rebuilds the lepton and nominal jet
collections, the nominal MET and the vertex count from the entry,
independently of the sample kind. -/
lemma decodeEvent_obs_core (s : ReaderState) (e : RawEntry) :
    (decodeEvent s e).leptons = sortLeptons e.leptons ∧
    (decodeEvent s e).jets = sortJets e.jets ∧
    (decodeEvent s e).met = e.met ∧
    (decodeEvent s e).nPV = e.nPV := by
  unfold decodeEvent
  split <;> simp

/-- For a simulation sample the decode block overwrites every member that
two core-agreeing states may differ in (all decoded buffers, including the
JEC-shifted jet collections and MET variants, and the cache flag), so the
two post-decode states are equal outright. -/
lemma decodeEvent_eq_of_core (a b : ReaderState) (e : RawEntry)
    (hmc : a.isMC = true) (hag : coreAgree a b) :
    decodeEvent a e = decodeEvent b e := by
  obtain ⟨h1, h2, h3, h4, h5, h6, h7, h8, h9, h10⟩ := hag
  have hb : b.isMC = true := h3.symm.trans hmc
  simp only [decodeEvent]
  rw [if_pos hmc, if_pos hb]
  simp [ReaderState.mk.injEq, h1, h2, h3, h4, h5, h6, h7, h8, h9, h10]

/-- Decoding the same entry from two core-agreeing states: the
always-rebuilt members coincide, the post-decode states are equal outright
for simulation samples, and all accessors (including the weight) agree. -/
lemma decode_same_entry (model : BTagModel) (a b : ReaderState) (e : RawEntry)
    (hag : coreAgree a b) :
    (decodeEvent a e).leptons = (decodeEvent b e).leptons ∧
    (decodeEvent a e).jets = (decodeEvent b e).jets ∧
    (decodeEvent a e).met = (decodeEvent b e).met ∧
    (decodeEvent a e).nPV = (decodeEvent b e).nPV ∧
    (a.isMC = true → decodeEvent a e = decodeEvent b e) ∧
    GetLeptons (decodeEvent a e) = GetLeptons (decodeEvent b e) ∧
    GetJets (decodeEvent a e) = GetJets (decodeEvent b e) ∧
    GetMET (decodeEvent a e) = GetMET (decodeEvent b e) ∧
    GetNumPV (decodeEvent a e) = GetNumPV (decodeEvent b e) ∧
    (GetWeight model (decodeEvent a e)).1 = (GetWeight model (decodeEvent b e)).1 := by
  obtain ⟨h1, h2, h3, h4, h5, h6, h7, h8, h9, h10⟩ := hag
  obtain ⟨a1, a2, a3, a4⟩ := decodeEvent_obs_core a e
  obtain ⟨b1, b2, b3, b4⟩ := decodeEvent_obs_core b e
  obtain ⟨g1, g2, g3, g4, g5⟩ := decodeEvent_getters model a b e h3 h4 h5 h6
  exact ⟨by rw [a1, b1], by rw [a2, b2], by rw [a3, b3], by rw [a4, b4],
    fun hmc => decodeEvent_eq_of_core a b e hmc
      ⟨h1, h2, h3, h4, h5, h6, h7, h8, h9, h10⟩,
    g1, g2, g3, g4, g5⟩

/-- In-partition step: with entries remaining in the current tree, a read
decodes the entry at the cursor and advances it. -/
lemma readNextEvent_inseq (f : SourceFile) (s : ReaderState) (e : RawEntry)
    (hcur : ¬ s.curEntry = s.nEntries) (hent : s.curEntries[s.curEntry]? = some e) :
    ReadNextEvent f s =
      .ok (true, decodeEvent { s with curEntry := s.curEntry + 1 } e) := by
  unfold ReadNextEvent loadAndDecode
  rw [if_neg hcur]
  simp only [hent]

/-- In-partition step with the cursor outside the bound tree (the runaway
situation): the entry load is undefined. -/
lemma readNextEvent_inseq_none (f : SourceFile) (s : ReaderState)
    (hcur : ¬ s.curEntry = s.nEntries) (hent : s.curEntries[s.curEntry]? = none) :
    ReadNextEvent f s = .error ReaderError.undefinedBehavior := by
  unfold ReadNextEvent loadAndDecode
  rw [if_neg hcur]
  simp only [hent]

/-- End of stream: current tree exhausted and no further tree. -/
lemma readNextEvent_atEnd (f : SourceFile) (s : ReaderState)
    (hcur : s.curEntry = s.nEntries)
    (hlast : s.curTreeIdx + 1 = s.treeNames.length) :
    ReadNextEvent f s = .ok (false, { s with curTreeIdx := s.curTreeIdx + 1 }) := by
  unfold ReadNextEvent
  rw [if_pos hcur, if_pos hlast]

/-- Past the end: the incremented name iterator is invalid. -/
lemma readNextEvent_pastEnd (f : SourceFile) (s : ReaderState)
    (hcur : s.curEntry = s.nEntries)
    (hlast : ¬ s.curTreeIdx + 1 = s.treeNames.length)
    (hname : s.treeNames[s.curTreeIdx + 1]? = none) :
    ReadNextEvent f s = .error ReaderError.undefinedBehavior := by
  unfold ReadNextEvent
  rw [if_pos hcur, if_neg hlast]
  simp only [hname]

/-- Partition boundary with a missing tree: fatal. -/
lemma readNextEvent_boundary_missing (f : SourceFile) (s : ReaderState)
    (name : String) (hcur : s.curEntry = s.nEntries)
    (hlast : ¬ s.curTreeIdx + 1 = s.treeNames.length)
    (hname : s.treeNames[s.curTreeIdx + 1]? = some name)
    (hget : f.get name = none) :
    ReadNextEvent f s = .error (ReaderError.missingTree name) := by
  unfold ReadNextEvent GetTree
  rw [if_pos hcur, if_neg hlast]
  simp only [hname, hget, Except.bind]

/-- Partition boundary into an empty tree: the unconditional entry load is
out of range, hence undefined. -/
lemma readNextEvent_boundary_empty (f : SourceFile) (s : ReaderState)
    (name : String) (entries : List RawEntry) (hcur : s.curEntry = s.nEntries)
    (hlast : ¬ s.curTreeIdx + 1 = s.treeNames.length)
    (hname : s.treeNames[s.curTreeIdx + 1]? = some name)
    (hget : f.get name = some entries) (hent : entries[0]? = none) :
    ReadNextEvent f s = .error ReaderError.undefinedBehavior := by
  unfold ReadNextEvent GetTree loadAndDecode
  rw [if_pos hcur, if_neg hlast]
  simp only [hname, hget, Except.bind, hent]

/-- Partition boundary into a nonempty tree: bind it and decode its first
entry. -/
lemma readNextEvent_boundary (f : SourceFile) (s : ReaderState) (name : String)
    (entries : List RawEntry) (e : RawEntry) (hcur : s.curEntry = s.nEntries)
    (hlast : ¬ s.curTreeIdx + 1 = s.treeNames.length)
    (hname : s.treeNames[s.curTreeIdx + 1]? = some name)
    (hget : f.get name = some entries) (hent : entries[0]? = some e) :
    ReadNextEvent f s =
      .ok (true, decodeEvent
        { s with curTreeIdx := s.curTreeIdx + 1, curEntries := entries,
                 nEntries := entries.length, curEntry := 0 + 1, weight := 1 } e) := by
  unfold ReadNextEvent GetTree loadAndDecode
  rw [if_pos hcur, if_neg hlast]
  simp only [hname, hget, Except.bind, hent]

/-- Congruence for a successful `ReadNextEvent`: two states agreeing on all
control-flow members produce the same success flag and decoded events that
agree on every always-rebuilt member; for simulation samples the two
post-read states are equal outright (so the JEC-shifted jet collections and
MET variants coincide as well), and all accessors agree. -/
lemma readNextEvent_congr (f : SourceFile) (model : BTagModel)
    (a b a1 : ReaderState) (hag : coreAgree a b)
    (ha : ReadNextEvent f a = .ok (true, a1)) :
    ∃ b1, ReadNextEvent f b = .ok (true, b1) ∧
      a1.leptons = b1.leptons ∧ a1.jets = b1.jets ∧ a1.met = b1.met ∧
      a1.nPV = b1.nPV ∧ (a.isMC = true → a1 = b1) ∧
      GetLeptons a1 = GetLeptons b1 ∧ GetJets a1 = GetJets b1 ∧
      GetMET a1 = GetMET b1 ∧ GetNumPV a1 = GetNumPV b1 ∧
      (GetWeight model a1).1 = (GetWeight model b1).1 := by
  obtain ⟨h1, h2, h3, h4, h5, h6, h7, h8, h9, h10⟩ := hag
  by_cases hcur : a.curEntry = a.nEntries
  · have hcur' : b.curEntry = b.nEntries := by rw [← h8, ← h9]; exact hcur
    by_cases hlast : a.curTreeIdx + 1 = a.treeNames.length
    · rw [readNextEvent_atEnd f a hcur hlast] at ha
      exact absurd ha (by simp)
    · have hlast' : ¬ b.curTreeIdx + 1 = b.treeNames.length := by
        rw [← h1, ← h2]; exact hlast
      cases hname : a.treeNames[a.curTreeIdx + 1]? with
      | none =>
          rw [readNextEvent_pastEnd f a hcur hlast hname] at ha
          exact absurd ha (by simp)
      | some name =>
          have hname' : b.treeNames[b.curTreeIdx + 1]? = some name := by
            rw [← h1, ← h2]; exact hname
          cases hget : f.get name with
          | none =>
              rw [readNextEvent_boundary_missing f a name hcur hlast hname hget] at ha
              exact absurd ha (by simp)
          | some entries =>
              cases hent : entries[0]? with
              | none =>
                  rw [readNextEvent_boundary_empty f a name entries
                    hcur hlast hname hget hent] at ha
                  exact absurd ha (by simp)
              | some e =>
                  rw [readNextEvent_boundary f a name entries e
                    hcur hlast hname hget hent] at ha
                  injection ha with ha
                  injection ha with _ ha
                  rw [readNextEvent_boundary f b name entries e
                    hcur' hlast' hname' hget hent]
                  refine ⟨_, rfl, ?_⟩
                  rw [← ha]
                  exact decode_same_entry model
                    { a with curTreeIdx := a.curTreeIdx + 1, curEntries := entries,
                             nEntries := entries.length, curEntry := 0 + 1,
                             weight := 1 }
                    { b with curTreeIdx := b.curTreeIdx + 1, curEntries := entries,
                             nEntries := entries.length, curEntry := 0 + 1,
                             weight := 1 }
                    e ⟨h1, congrArg (· + 1) h2, h3, h4, h5, h6, rfl, rfl, rfl, rfl⟩
  · have hcur' : ¬ b.curEntry = b.nEntries := by rw [← h8, ← h9]; exact hcur
    cases hent : a.curEntries[a.curEntry]? with
    | none =>
        rw [readNextEvent_inseq_none f a hcur hent] at ha
        exact absurd ha (by simp)
    | some e =>
        have hent' : b.curEntries[b.curEntry]? = some e := by
          rw [← h7, ← h8]; exact hent
        rw [readNextEvent_inseq f a e hcur hent] at ha
        injection ha with ha
        injection ha with _ ha
        rw [readNextEvent_inseq f b e hcur' hent']
        refine ⟨_, rfl, ?_⟩
        rw [← ha]
        exact decode_same_entry model { a with curEntry := a.curEntry + 1 }
          { b with curEntry := b.curEntry + 1 } e
          ⟨h1, h2, h3, h4, h5, h6, h7, congrArg (· + 1) h8, h9, h10⟩


/-- **C6**: if a Reader is constructed over (f, names, isMC) and its first
`ReadNextEvent` decodes an event `s1`, then from any later state with the
same sample kind, variation selection and reweighting toggle, a successful
`Rewind` followed by `ReadNextEvent` reproduces the identical decoded
event: the same lepton collection, nominal jet collection, nominal MET and
vertex count, and — for simulation samples, which are the only ones that
decode them — the same shift-up and shift-down jet collections, the same
shift-up and shift-down MET, the same raw weight, indeed the very same
Reader state; hence every accessor and the `Weight()` value under any
fixed deterministic reweighting model agree. -/
theorem c6_rewind_reproduces_first_event (f : SourceFile) (names : List String)
    (isMC : Bool) (init : InitState) (model : BTagModel) (s0 s1 s sr : ReaderState)
    (h0 : Reader.construct f names isMC init = .ok s0)
    (hfirst : ReadNextEvent f s0 = .ok (true, s1))
    (htn : s.treeNames = names) (hmc : s.isMC = isMC)
    (hst : s.curSystType = s0.curSystType)
    (hsd : s.curSystDirection = s0.curSystDirection)
    (hbt : s.applyBTagReweighting = s0.applyBTagReweighting)
    (hr : Rewind f s = .ok sr) :
    ∃ s1', ReadNextEvent f sr = .ok (true, s1') ∧
      s1.leptons = s1'.leptons ∧ s1.jets = s1'.jets ∧ s1.met = s1'.met ∧
      s1.nPV = s1'.nPV ∧
      (isMC = true →
        s1.jetsJECUp = s1'.jetsJECUp ∧ s1.jetsJECDown = s1'.jetsJECDown ∧
        s1.metJECUp = s1'.metJECUp ∧ s1.metJECDown = s1'.metJECDown ∧
        s1.rawWeight = s1'.rawWeight ∧ s1 = s1') ∧
      GetLeptons s1 = GetLeptons s1' ∧ GetJets s1 = GetJets s1' ∧
      GetMET s1 = GetMET s1' ∧ GetNumPV s1 = GetNumPV s1' ∧
      (GetWeight model s1).1 = (GetWeight model s1').1 := by
  obtain ⟨-, nm0, es0, hnm0, hes0, hs0⟩ := construct_ok_state f names isMC init s0 h0
  obtain ⟨nm, es, hnm, hes, hsr⟩ := rewind_ok_state f s sr hr
  have hnmeq : nm = nm0 := by
    rw [htn] at hnm
    rw [hnm0] at hnm
    exact (Option.some.inj hnm).symm
  have heseq : es = es0 := by
    rw [hnmeq, hes0] at hes
    exact (Option.some.inj hes).symm
  have hag : coreAgree s0 sr := by
    subst hs0 hsr heseq
    refine ⟨htn.symm, rfl, hmc.symm, hst.symm, hsd.symm, hbt.symm, rfl, rfl, rfl, rfl⟩
  have hs0mc : s0.isMC = isMC := by rw [hs0]
  obtain ⟨b1, hb, hl, hj, hm, hn, hfull, hgl, hgj, hgm, hgn, hgw⟩ :=
    readNextEvent_congr f model s0 sr s1 hag hfirst
  refine ⟨b1, hb, hl, hj, hm, hn, fun hMC => ?_, hgl, hgj, hgm, hgn, hgw⟩
  have hfull' : s1 = b1 := hfull (hs0mc.trans hMC)
  rw [hfull']
  exact ⟨rfl, rfl, rfl, rfl, rfl, rfl⟩

/-- The state after rewinding the exhausted Reader `trA3`. -/
def c6sr : ReaderState := (Rewind fileA trA3).toOption.getD default

/-- Witness for C6 on the concrete exhausted-then-rewound simulation
Reader, including the JEC-shifted collections and MET variants and full
state equality. -/
theorem c6_rewind_reproduces_first_event_witness :
    ∃ s1', ReadNextEvent fileA c6sr = .ok (true, s1') ∧
      trA1.leptons = s1'.leptons ∧ trA1.jets = s1'.jets ∧ trA1.met = s1'.met ∧
      trA1.nPV = s1'.nPV ∧
      (true = true →
        trA1.jetsJECUp = s1'.jetsJECUp ∧ trA1.jetsJECDown = s1'.jetsJECDown ∧
        trA1.metJECUp = s1'.metJECUp ∧ trA1.metJECDown = s1'.metJECDown ∧
        trA1.rawWeight = s1'.rawWeight ∧ trA1 = s1') ∧
      GetLeptons trA1 = GetLeptons s1' ∧ GetJets trA1 = GetJets s1' ∧
      GetMET trA1 = GetMET s1' ∧ GetNumPV trA1 = GetNumPV s1' ∧
      (GetWeight modelTwo trA1).1 = (GetWeight modelTwo s1').1 :=
  c6_rewind_reproduces_first_event fileA ["t"] true initA modelTwo trA0 trA1 trA3 c6sr
    (by decide) (by decide) (by decide) (by decide) (by decide) (by decide)
    (by decide) (by decide)

/-! ### C4: multi-partition iteration -/

/-- The caller-observable decoded event: collections, MET variants, vertex
count and raw weight. -/
structure ObsEvent where
  leptons : List Lepton
  jets : List Jet
  jetsJECUp : List Jet
  jetsJECDown : List Jet
  met : MET
  metJECUp : MET
  metJECDown : MET
  nPV : Nat
  rawWeight : ℤ
deriving DecidableEq, Repr

/-- Project the observable decoded event out of a Reader state. -/
def eventObs (s : ReaderState) : ObsEvent :=
  ⟨s.leptons, s.jets, s.jetsJECUp, s.jetsJECDown, s.met, s.metJECUp,
   s.metJECDown, s.nPV, s.rawWeight⟩

/-- What one decode step does to the observable event: for simulation every
field is rebuilt from the entry; for data the JEC fields and the raw weight
keep their previous values. -/
def stepObs (isMC : Bool) (o : ObsEvent) (e : RawEntry) : ObsEvent :=
  if isMC then
    ⟨sortLeptons e.leptons, sortJets e.jets, sortJets e.jetsJECUp,
     sortJets e.jetsJECDown, e.met, e.metJECUp, e.metJECDown, e.nPV, e.rawWeight⟩
  else
    ⟨sortLeptons e.leptons, sortJets e.jets, o.jetsJECUp, o.jetsJECDown,
     e.met, o.metJECUp, o.metJECDown, e.nPV, o.rawWeight⟩

/-- Run `n` consecutive `ReadNextEvent` calls, collecting each call's boolean
result together with the observable event after the call. -/
def readObs (f : SourceFile) : Nat → ReaderState →
    Except ReaderError (List (Bool × ObsEvent) × ReaderState)
  | 0, s => .ok ([], s)
  | n + 1, s =>
      (ReadNextEvent f s).bind fun r =>
        (readObs f n r.2).map fun p => ((r.1, eventObs r.2) :: p.1, p.2)

/-- The expected trace over a list of raw entries: every call succeeds and
decodes the next entry in order. -/
def obsTrace (isMC : Bool) (o : ObsEvent) : List RawEntry → List (Bool × ObsEvent)
  | [] => []
  | e :: rest =>
      (true, stepObs isMC o e) :: obsTrace isMC (stepObs isMC o e) rest

/-- The entries the Reader has not yet visited: the rest of the current
tree followed by all the entries of the later trees. -/
def remainingEntries (parts : List (List RawEntry)) (s : ReaderState) :
    List RawEntry :=
  s.curEntries.drop s.curEntry ++ (parts.drop (s.curTreeIdx + 1)).flatten

/-- Invariant tying a Reader state to the per-tree entry lists `parts` of
its source file: the names resolve to `parts`, the cursor is in range, the
bound tree is the current element of `parts`, and (for the amended C4)
every tree after the current one is nonempty. -/
structure ReaderInv (f : SourceFile) (parts : List (List RawEntry))
    (s : ReaderState) : Prop where
  assoc : List.Forall₂ (fun nm es => f.get nm = some es) s.treeNames parts
  idx_lt : s.curTreeIdx < s.treeNames.length
  cur_eq : parts[s.curTreeIdx]? = some s.curEntries
  n_eq : s.nEntries = s.curEntries.length
  entry_le : s.curEntry ≤ s.nEntries
  tail_ne : ∀ j es, s.curTreeIdx < j → parts[j]? = some es → es ≠ []

lemma forall₂_get_left {α β : Type} {R : α → β → Prop} {l1 : List α}
    {l2 : List β} (h : List.Forall₂ R l1 l2) (i : Nat) (a : α)
    (ha : l1[i]? = some a) : ∃ b, l2[i]? = some b ∧ R a b := by
  obtain ⟨hlen, hpt⟩ := List.forall₂_iff_get.1 h
  obtain ⟨hi, hval⟩ := List.getElem?_eq_some.1 ha
  refine ⟨l2[i], List.getElem?_eq_getElem (by omega), ?_⟩
  have hp := hpt i hi (by omega)
  rw [List.get_eq_getElem, List.get_eq_getElem, hval] at hp
  exact hp

lemma forall₂_get_right {α β : Type} {R : α → β → Prop} {l1 : List α}
    {l2 : List β} (h : List.Forall₂ R l1 l2) (i : Nat) (b : β)
    (hb : l2[i]? = some b) : ∃ a, l1[i]? = some a ∧ R a b := by
  obtain ⟨hlen, hpt⟩ := List.forall₂_iff_get.1 h
  obtain ⟨hi, hval⟩ := List.getElem?_eq_some.1 hb
  refine ⟨l1[i], List.getElem?_eq_getElem (by omega), ?_⟩
  have hp := hpt i (by omega) hi
  rw [List.get_eq_getElem, List.get_eq_getElem, hval] at hp
  exact hp

/-- Decoding rewrites the observable event exactly as `stepObs` says. -/
lemma eventObs_decode (s : ReaderState) (e : RawEntry) :
    eventObs (decodeEvent s e) = stepObs s.isMC (eventObs s) e := by
  unfold decodeEvent stepObs eventObs
  cases s.isMC <;> simp

/-- `decodeEvent` does not touch the cursor or binding members. -/
lemma decodeEvent_cursor (s : ReaderState) (e : RawEntry) :
    (decodeEvent s e).treeNames = s.treeNames ∧
    (decodeEvent s e).curTreeIdx = s.curTreeIdx ∧
    (decodeEvent s e).curEntries = s.curEntries ∧
    (decodeEvent s e).curEntry = s.curEntry ∧
    (decodeEvent s e).nEntries = s.nEntries ∧
    (decodeEvent s e).isMC = s.isMC := by
  unfold decodeEvent
  split <;> simp

/-- A read step with entries remaining: it succeeds, decodes the head of
the remaining-entry list, preserves the invariant, and consumes exactly
that head. -/
lemma readStep_cons (f : SourceFile) (parts : List (List RawEntry))
    (s : ReaderState) (e : RawEntry) (R : List RawEntry)
    (hinv : ReaderInv f parts s) (hrem : remainingEntries parts s = e :: R) :
    ∃ s', ReadNextEvent f s = .ok (true, s') ∧ ReaderInv f parts s' ∧
      remainingEntries parts s' = R ∧
      eventObs s' = stepObs s.isMC (eventObs s) e ∧ s'.isMC = s.isMC := by
  obtain ⟨hassoc, hidx, hcur, hn, hle, htail⟩ := hinv
  by_cases hlt : s.curEntry < s.curEntries.length
  · -- still inside the current tree
    have hdrop := List.drop_eq_getElem_cons hlt
    unfold remainingEntries at hrem
    rw [hdrop, List.cons_append] at hrem
    injection hrem with he hR
    have hcurne : ¬ s.curEntry = s.nEntries := by omega
    have hent : s.curEntries[s.curEntry]? = some e := by
      rw [List.getElem?_eq_getElem hlt, he]
    refine ⟨_, readNextEvent_inseq f s e hcurne hent, ?_, ?_, ?_, ?_⟩
    · obtain ⟨c1, c2, c3, c4, c5, c6⟩ :=
        decodeEvent_cursor { s with curEntry := s.curEntry + 1 } e
      refine ⟨by rw [c1]; exact hassoc, by rw [c2, c1]; exact hidx,
        by rw [c2, c3]; exact hcur, by rw [c5, c3]; exact hn,
        by rw [c4, c5]; show s.curEntry + 1 ≤ s.nEntries; omega, ?_⟩
      intro j es hj hes
      rw [c2] at hj
      exact htail j es hj hes
    · obtain ⟨c1, c2, c3, c4, c5, c6⟩ :=
        decodeEvent_cursor { s with curEntry := s.curEntry + 1 } e
      unfold remainingEntries
      rw [c2, c3, c4]
      exact hR
    · rw [eventObs_decode]
      rfl
    · obtain ⟨-, -, -, -, -, c6⟩ :=
        decodeEvent_cursor { s with curEntry := s.curEntry + 1 } e
      exact c6
  · -- the current tree is exhausted: advance to the next one
    have hcureq : s.curEntry = s.nEntries := by omega
    have hdrop : s.curEntries.drop s.curEntry = [] :=
      List.drop_eq_nil_iff.2 (by omega)
    unfold remainingEntries at hrem
    rw [hdrop, List.nil_append] at hrem
    have hplen : s.curTreeIdx + 1 < parts.length := by
      by_contra hge
      rw [List.drop_eq_nil_iff.2 (by omega)] at hrem
      exact absurd hrem (by simp)
    have hpget : parts[s.curTreeIdx + 1]? = some parts[s.curTreeIdx + 1] :=
      List.getElem?_eq_getElem hplen
    obtain ⟨nm, hnm, hget⟩ := forall₂_get_right hassoc (s.curTreeIdx + 1) _ hpget
    have hne : parts[s.curTreeIdx + 1] ≠ [] := htail _ _ (by omega) hpget
    have hlen : s.treeNames.length = parts.length := hassoc.length_eq
    have hlast : ¬ s.curTreeIdx + 1 = s.treeNames.length := by omega
    rw [List.drop_eq_getElem_cons hplen, List.flatten_cons] at hrem
    cases hes : parts[s.curTreeIdx + 1] with
    | nil => exact absurd hes hne
    | cons e0 t' =>
        rw [hes, List.cons_append] at hrem
        injection hrem with he hR
        have hent0 : parts[s.curTreeIdx + 1][0]? = some e := by
          rw [hes, he]
          simp
        refine ⟨_, readNextEvent_boundary f s nm parts[s.curTreeIdx + 1] e
          hcureq hlast hnm hget hent0, ?_, ?_, ?_, ?_⟩
        · obtain ⟨c1, c2, c3, c4, c5, c6⟩ := decodeEvent_cursor
            { s with curTreeIdx := s.curTreeIdx + 1,
                     curEntries := parts[s.curTreeIdx + 1],
                     nEntries := parts[s.curTreeIdx + 1].length,
                     curEntry := 0 + 1, weight := 1 } e
          refine ⟨by rw [c1]; exact hassoc,
            by rw [c2, c1]; show s.curTreeIdx + 1 < s.treeNames.length; omega,
            by rw [c2, c3]; exact hpget,
            by rw [c5, c3],
            by rw [c4, c5]; show 0 + 1 ≤ parts[s.curTreeIdx + 1].length;
               rw [hes]; simp, ?_⟩
          intro j es' hj hes'
          rw [c2] at hj
          have hj' : s.curTreeIdx + 1 < j := hj
          exact htail j es' (by omega) hes'
        · obtain ⟨c1, c2, c3, c4, c5, c6⟩ := decodeEvent_cursor
            { s with curTreeIdx := s.curTreeIdx + 1,
                     curEntries := parts[s.curTreeIdx + 1],
                     nEntries := parts[s.curTreeIdx + 1].length,
                     curEntry := 0 + 1, weight := 1 } e
          unfold remainingEntries
          rw [c2, c3, c4]
          show List.drop (0 + 1) parts[s.curTreeIdx + 1] ++
            (List.drop (s.curTreeIdx + 1 + 1) parts).flatten = R
          rw [hes]
          simpa using hR
        · rw [eventObs_decode]
          rfl
        · obtain ⟨-, -, -, -, -, c6⟩ := decodeEvent_cursor
            { s with curTreeIdx := s.curTreeIdx + 1,
                     curEntries := parts[s.curTreeIdx + 1],
                     nEntries := parts[s.curTreeIdx + 1].length,
                     curEntry := 0 + 1, weight := 1 } e
          exact c6

/-- A read step with no entries remaining: the stream ends — the call
returns `false` and only the partition cursor moves. -/
lemma readStep_end (f : SourceFile) (parts : List (List RawEntry))
    (s : ReaderState) (hinv : ReaderInv f parts s)
    (hrem : remainingEntries parts s = []) :
    ReadNextEvent f s = .ok (false, { s with curTreeIdx := s.curTreeIdx + 1 }) := by
  obtain ⟨hassoc, hidx, hcur, hn, hle, htail⟩ := hinv
  unfold remainingEntries at hrem
  obtain ⟨hdrop, hflat⟩ := List.append_eq_nil.1 hrem
  have hcureq : s.curEntry = s.nEntries := by
    have := List.drop_eq_nil_iff.1 hdrop
    omega
  have hlen : s.treeNames.length = parts.length := hassoc.length_eq
  have hplen : parts.length ≤ s.curTreeIdx + 1 := by
    by_contra hgt
    have hplt : s.curTreeIdx + 1 < parts.length := by omega
    have hmem : parts[s.curTreeIdx + 1] ∈ parts.drop (s.curTreeIdx + 1) := by
      rw [List.drop_eq_getElem_cons hplt]
      exact List.mem_cons_self _ _
    have := List.flatten_eq_nil_iff.1 hflat _ hmem
    exact htail _ _ (by omega) (List.getElem?_eq_getElem hplt) this
  have hlast : s.curTreeIdx + 1 = s.treeNames.length := by omega
  exact readNextEvent_atEnd f s hcureq hlast

/-- Running `ReadNextEvent` once per remaining entry and once more: every
entry is visited exactly once, in order, each call returning `true` with
the decoded observation, and the final call returns `false` with the
observation unchanged. -/
lemma readObs_run (f : SourceFile) (parts : List (List RawEntry)) :
    ∀ (R : List RawEntry) (s : ReaderState), ReaderInv f parts s →
      remainingEntries parts s = R →
      ∃ sfin, readObs f (R.length + 1) s =
        .ok (obsTrace s.isMC (eventObs s) R ++
          [(false, R.foldl (stepObs s.isMC) (eventObs s))], sfin)
  | [], s, hinv, hrem => by
      have hread := readStep_end f parts s hinv hrem
      refine ⟨{ s with curTreeIdx := s.curTreeIdx + 1 }, ?_⟩
      simp only [List.length_nil, readObs, hread, Except.bind, Except.map,
        obsTrace, List.foldl, List.nil_append]
      rfl
  | e :: R, s, hinv, hrem => by
      obtain ⟨s', hread, hinv', hrem', hobs, hmc⟩ :=
        readStep_cons f parts s e R hinv hrem
      obtain ⟨sfin, ih⟩ := readObs_run f parts R s' hinv' hrem'
      rw [hmc, hobs] at ih
      refine ⟨sfin, ?_⟩
      show (ReadNextEvent f s).bind _ = _
      rw [hread]
      simp only [Except.bind, List.length_cons]
      rw [ih]
      simp only [Except.map, obsTrace, List.foldl, List.cons_append, hobs]

/-- **C4 (amended)**: for a Reader constructed over partitions with entry
lists `parts`, all partitions after the first being nonempty, exactly
`(parts.map List.length).sum` consecutive `ReadNextEvent` calls succeed,
visiting every entry of every partition exactly once in partition order
with no error at any partition boundary, and the next call returns `false`.
(When a partition after the first is empty the source instead loads entry 0
of the empty partition — out of range, undefined behavior — so the claim's
unrestricted version fails; see the counterexample.) -/
theorem c4_multi_partition_iteration (f : SourceFile) (names : List String)
    (parts : List (List RawEntry)) (isMC : Bool) (init : InitState)
    (s0 : ReaderState)
    (hok : Reader.construct f names isMC init = .ok s0)
    (hassoc : List.Forall₂ (fun nm es => f.get nm = some es) names parts)
    (hne : ∀ j es, 0 < j → parts[j]? = some es → es ≠ []) :
    ∃ sfin, readObs f ((parts.map List.length).sum + 1) s0 =
      .ok (obsTrace isMC (eventObs s0) parts.flatten ++
        [(false, parts.flatten.foldl (stepObs isMC) (eventObs s0))], sfin) := by
  obtain ⟨-, nm0, es0, hnm0, hes0, hs0⟩ := construct_ok_state f names isMC init s0 hok
  obtain ⟨es0', hp0, hget0⟩ := forall₂_get_left hassoc 0 nm0 hnm0
  have hes0eq : es0' = es0 := by
    rw [hes0] at hget0
    exact (Option.some.inj hget0).symm
  subst hes0eq
  have hlen0 : 0 < names.length := by
    obtain ⟨h, -⟩ := List.getElem?_eq_some.1 hnm0
    exact h
  have hplen : 0 < parts.length := by
    obtain ⟨h, -⟩ := List.getElem?_eq_some.1 hp0
    exact h
  have hp0v : parts[0] = es0' := by
    obtain ⟨h1, hv⟩ := List.getElem?_eq_some.1 hp0
    exact hv
  have hsplit : parts = parts[0] :: parts.drop 1 := by
    have hd := List.drop_eq_getElem_cons hplen
    simpa using hd
  subst hs0
  have hinv : ReaderInv f parts
      { treeNames := names, curTreeIdx := 0, isMC := isMC,
        curSystType := .Nominal, curSystDirection := .Up,
        applyBTagReweighting := true,
        curEntries := es0', curEntry := 0, nEntries := es0'.length,
        leptons := [], jets := [], jetsJECUp := [], jetsJECDown := [],
        met := init.met, metJECUp := init.metJECUp,
        metJECDown := init.metJECDown,
        nPV := init.nPV, rawWeight := init.rawWeight,
        weight := 1, weightCached := init.weightCached } :=
    ⟨hassoc, hlen0, hp0, rfl, Nat.zero_le _, fun j es hj hes => hne j es hj hes⟩
  have hrem : remainingEntries parts
      { treeNames := names, curTreeIdx := 0, isMC := isMC,
        curSystType := .Nominal, curSystDirection := .Up,
        applyBTagReweighting := true,
        curEntries := es0', curEntry := 0, nEntries := es0'.length,
        leptons := [], jets := [], jetsJECUp := [], jetsJECDown := [],
        met := init.met, metJECUp := init.metJECUp,
        metJECDown := init.metJECDown,
        nPV := init.nPV, rawWeight := init.rawWeight,
        weight := 1, weightCached := init.weightCached } = parts.flatten := by
    unfold remainingEntries
    conv_rhs => rw [hsplit]
    rw [hp0v, List.flatten_cons]
    simp
  have hcount : parts.flatten.length = (parts.map List.length).sum :=
    List.length_flatten parts
  obtain ⟨sfin, hrun⟩ := readObs_run f parts parts.flatten _ hinv hrem
  rw [hcount] at hrun
  exact ⟨sfin, hrun⟩

/-- A file whose second tree is empty. -/
def fileB : SourceFile := ⟨true, [("t1", [entryA]), ("t2", [])]⟩

/-- The state after constructing a Reader over `fileB`. -/
def trB0 : ReaderState :=
  (Reader.construct fileB ["t1", "t2"] true initA).toOption.getD default

/-- The state after the first (successful) read on `trB0`. -/
def trB1 : ReaderState :=
  ((ReadNextEvent fileB trB0).toOption.getD (true, default)).2

/-- Counterexample to C4 as stated: with entry counts 1 and 0 the claim
demands exactly one success and then a clean `false`; instead the second
call binds the empty second tree and unconditionally loads its entry 0 —
out of range, undefined behavior. -/
theorem c4_counterexample :
    Reader.construct fileB ["t1", "t2"] true initA = .ok trB0 ∧
    ReadNextEvent fileB trB0 = .ok (true, trB1) ∧
    ReadNextEvent fileB trB1 = .error ReaderError.undefinedBehavior := by decide

/-- A file with entry counts 3 and 2 (the instance named by the claim). -/
def fileC : SourceFile :=
  ⟨true, [("t1", [entryA, entryB, entryA]), ("t2", [entryB, entryA])]⟩

/-- The per-tree entry lists of `fileC`. -/
def partsC : List (List RawEntry) := [[entryA, entryB, entryA], [entryB, entryA]]

/-- The state after constructing a Reader over `fileC`. -/
def trC0 : ReaderState :=
  (Reader.construct fileC ["t1", "t2"] true initA).toOption.getD default

/-- Witness for the amended C4 with entry counts 3 and 2: exactly five
successful reads visiting the five entries in order, then `false`. -/
theorem c4_multi_partition_iteration_witness :
    ∃ sfin, readObs fileC ((partsC.map List.length).sum + 1) trC0 =
      .ok (obsTrace true (eventObs trC0) partsC.flatten ++
        [(false, partsC.flatten.foldl (stepObs true) (eventObs trC0))], sfin) :=
  c4_multi_partition_iteration fileC ["t1", "t2"] partsC true initA trC0
    (by decide)
    (List.Forall₂.cons (by decide) (List.Forall₂.cons (by decide) List.Forall₂.nil))
    (by
      intro j es hj hes
      rcases j with _ | _ | j
      · exact absurd hj (lt_irrefl 0)
      · have h1 : partsC[1]? = some [entryB, entryA] := by decide
        rw [h1] at hes
        rw [← Option.some.inj hes]
        decide
      · have h2 : partsC[j + 2]? = none := by
          apply List.getElem?_eq_none
          simp [partsC]
        rw [h2] at hes
        exact absurd hes (by simp))
